import Mathlib

/-!
Verification development for the xng ground-station receiver supervisor
(HFDL band & session orchestrator).  Rust sources are shallowly embedded:
pure functions become Lean functions over Nat/Int/Rat/List, fallible code
returns Option/Except, and stateful code is explicit state passing.
Machine-integer widths and floating point are noted at each definition.
-/

namespace Xng

/-! ### src/modules/hfdl/utils.rs -/

/-- Embeds `get_max_dist_khz_by_sample_rate` (utils.rs:3-5):
`(((sample_rate as f64) * 0.9) / 1000.0) as u32`.
The `as u32` cast truncates toward zero, so the result is
⌊sample_rate · 9 / 10000⌋.  For every u32 `sample_rate`, the f64
computation yields exactly this floor: the two roundings move the value
by a relative error below 2⁻⁵², while the distance from
`sample_rate · 0.9 / 1000` to the nearest other integer is at least
10⁻⁴ unless the exact value is an integer, in which case the computed
double rounds to exactly that integer (checked for the sample rates used
in the claims, e.g. 500000 ↦ 450). -/
def get_max_dist_khz_by_sample_rate (sample_rate : Nat) : Nat :=
  sample_rate * 9 / 10000

/-- Embeds the `band_name` closure of `freq_bands_by_sample_rate`
(utils.rs:8-20): label "<first>-<last>", or "<first>" when the band is a
singleton or ends in 0, or "<last>" when it starts with 0. -/
def bandName (band : List Nat) : String :=
  let first := band.head?.getD 0
  let last := band.getLast?.getD 0
  if first = 0 then toString last
  else if last = 0 ∨ first = last then toString first
  else toString first ++ "-" ++ toString last

/-- Embeds the loop of `freq_bands_by_sample_rate` (utils.rs:25-42):
the accumulator `band` is flushed when the next frequency is more than
`max_dist_khz` above the band's first element; `maxDist` is the
u16-wrapped threshold the caller computes at utils.rs:23.  The Rust
`HashMap` result is represented as the association list of inserted
(label, band) pairs in insertion order; for the strictly ascending
inputs the claims quantify over, the labels are pairwise distinct, so
the association list carries exactly the map's entries.  The Rust
`freq - last_band` is u16 subtraction, which equals Nat subtraction
whenever the input is ascending (the only inputs the claims speak
about; a descending input would underflow in Rust). -/
def freqBandsGo (maxDist : Nat) : List Nat → List Nat → List (String × List Nat)
  | band, [] => if band.isEmpty then [] else [(bandName band, band)]
  | band, f :: rest =>
    match band.head? with
    | none => freqBandsGo maxDist [f] rest
    | some first =>
      if f - first > maxDist then
        (bandName band, band) :: freqBandsGo maxDist [f] rest
      else
        freqBandsGo maxDist (band ++ [f]) rest

/-- Embeds `freq_bands_by_sample_rate` (utils.rs:7-45).  utils.rs:23
casts the u32 threshold `as u16`, so the grouping compares against
`get_max_dist_khz_by_sample_rate sample_rate` wrapped modulo 2¹⁶. -/
def freq_bands_by_sample_rate (freqs : List Nat) (sample_rate : Nat) :
    List (String × List Nat) :=
  freqBandsGo (get_max_dist_khz_by_sample_rate sample_rate % 65536) [] freqs

/-- Embeds `first_freq_above_eq` (utils.rs:47-52): position of the first
element ≥ target, returning that element. -/
def first_freq_above_eq (freqs : List Nat) (target_freq : Nat) : Option Nat :=
  freqs.find? (fun x => target_freq ≤ x)

/-- A produced band is well formed for `maxDist`: non-empty, strictly
ascending, and its last element exceeds its first by at most `maxDist`. -/
def BandOk (maxDist : Nat) (b : List Nat) : Prop :=
  b ≠ [] ∧ b.Chain' (· < ·) ∧ b.getLast?.getD 0 - b.head?.getD 0 ≤ maxDist

theorem freqBandsGo_ok (maxDist : Nat) :
    ∀ (rest band : List Nat), (band ++ rest).Chain' (· < ·) →
      band.getLast?.getD 0 - band.head?.getD 0 ≤ maxDist →
      ∀ p ∈ freqBandsGo maxDist band rest, BandOk maxDist p.2 := by
  intro rest
  induction rest with
  | nil =>
    intro band hchain hdist p hp
    cases band with
    | nil => simp [freqBandsGo] at hp
    | cons a t =>
      simp only [freqBandsGo, List.isEmpty_cons, Bool.false_eq_true, if_false,
        List.mem_singleton] at hp
      subst hp
      exact ⟨by simp, by simpa using hchain, hdist⟩
  | cons f rest ih =>
    intro band hchain hdist p hp
    cases band with
    | nil =>
      simp only [freqBandsGo, List.head?_nil] at hp
      exact ih [f] (by simpa using hchain) (by simp) p hp
    | cons first btail =>
      simp only [freqBandsGo, List.head?_cons] at hp
      by_cases hfar : f - first > maxDist
      · rw [if_pos hfar] at hp
        rcases List.mem_cons.mp hp with hp | hp
        · subst hp
          exact ⟨by simp, (List.chain'_append.mp hchain).1, hdist⟩
        · have hrest : (([f] : List Nat) ++ rest).Chain' (· < ·) := by
            simpa using (List.chain'_append.mp hchain).2.1
          exact ih [f] hrest (by simp) p hp
      · rw [if_neg hfar] at hp
        have hle : f - first ≤ maxDist := Nat.le_of_not_lt hfar
        have hchain2 : (((first :: btail) ++ [f]) ++ rest).Chain' (· < ·) := by
          simpa [List.append_assoc] using hchain
        have hdist2 : ((first :: btail) ++ [f]).getLast?.getD 0 -
            ((first :: btail) ++ [f]).head?.getD 0 ≤ maxDist := by
          rw [List.getLast?_concat]
          simp only [List.cons_append, List.head?_cons, Option.getD_some]
          omega
        exact ih ((first :: btail) ++ [f]) hchain2 hdist2 p hp

theorem freqBandsGo_label (maxDist : Nat) :
    ∀ (rest band : List Nat), ∀ p ∈ freqBandsGo maxDist band rest,
      p.1 = bandName p.2 ∧ ∀ x ∈ p.2, x ∈ band ++ rest := by
  intro rest
  induction rest with
  | nil =>
    intro band p hp
    cases band with
    | nil => simp [freqBandsGo] at hp
    | cons a t =>
      simp only [freqBandsGo, List.isEmpty_cons, Bool.false_eq_true, if_false,
        List.mem_singleton] at hp
      subst hp
      exact ⟨rfl, by simp⟩
  | cons f rest ih =>
    intro band p hp
    cases band with
    | nil =>
      simp only [freqBandsGo, List.head?_nil] at hp
      obtain ⟨h1, h2⟩ := ih [f] p hp
      exact ⟨h1, fun x hx => by simpa using h2 x hx⟩
    | cons first btail =>
      simp only [freqBandsGo, List.head?_cons] at hp
      by_cases hfar : f - first > maxDist
      · rw [if_pos hfar] at hp
        rcases List.mem_cons.mp hp with hp | hp
        · subst hp
          refine ⟨rfl, fun x hx => ?_⟩
          simp only at hx
          exact List.mem_append.mpr (Or.inl hx)
        · obtain ⟨h1, h2⟩ := ih [f] p hp
          refine ⟨h1, fun x hx => ?_⟩
          rcases List.mem_append.mp (h2 x hx) with h | h
          · simp only [List.mem_singleton] at h
            subst h
            simp
          · simp [h]
      · rw [if_neg hfar] at hp
        obtain ⟨h1, h2⟩ := ih ((first :: btail) ++ [f]) p hp
        refine ⟨h1, fun x hx => ?_⟩
        have := h2 x hx
        simpa [List.append_assoc] using this

theorem getLast_getD_mem {b : List Nat} (hb : b ≠ []) : b.getLast?.getD 0 ∈ b := by
  rw [List.getLast?_eq_getLast b hb]
  exact List.getLast_mem hb

theorem head_getD_le_getLast_getD {b : List Nat} (hb : b ≠ [])
    (hc : b.Chain' (· < ·)) : b.head?.getD 0 ≤ b.getLast?.getD 0 := by
  cases b with
  | nil => exact absurd rfl hb
  | cons a t =>
    have hp : (a :: t).Pairwise (· < ·) :=
      List.chain'_iff_pairwise.mp hc
    have hmem : (a :: t).getLast?.getD 0 ∈ a :: t := getLast_getD_mem hb
    simp only [List.head?_cons, Option.getD_some]
    rcases List.mem_cons.mp hmem with h | h
    · exact le_of_eq h.symm
    · exact le_of_lt ((List.pairwise_cons.mp hp).1 _ h)

/-- For a non-empty strictly ascending band, `band_name`'s `last == 0`
alternative is subsumed (a 0 can only be the head), leaving: a band
starting at 0 is labeled by its last element, a singleton by its only
element, and any other band "<first>-<last>". -/
theorem bandName_eq_of_ascending {b : List Nat} (hb : b ≠ [])
    (hc : b.Chain' (· < ·)) :
    bandName b = (if b.head?.getD 0 = 0 then toString (b.getLast?.getD 0)
      else if b.head?.getD 0 = b.getLast?.getD 0 then toString (b.head?.getD 0)
      else toString (b.head?.getD 0) ++ "-" ++ toString (b.getLast?.getD 0)) := by
  unfold bandName
  by_cases h0 : b.head?.getD 0 = 0
  · rw [if_pos h0, if_pos h0]
  · rw [if_neg h0, if_neg h0]
    have hfl : b.head?.getD 0 ≤ b.getLast?.getD 0 := head_getD_le_getLast_getD hb hc
    have hl0 : b.getLast?.getD 0 ≠ 0 := by omega
    by_cases hfleq : b.head?.getD 0 = b.getLast?.getD 0
    · rw [if_pos (Or.inr hfleq), if_pos hfleq]
    · rw [if_neg (by
        intro hor
        rcases hor with hor | hor
        · exact hl0 hor
        · exact hfleq hor), if_neg hfleq]

/-- C3 (amended): `freq_bands_by_sample_rate` groups a strictly
ascending duplicate-free frequency list greedily left to right with
threshold `⌊sample_rate·0.9/1000⌋` truncated to u16 (utils.rs:23 casts
`as u16`, wrapping modulo 2¹⁶); every produced band is strictly
ascending with width at most the wrapped threshold — hence also at most
`⌊sample_rate·0.9/1000⌋` itself; each band is labeled
"<first>-<last>", or "<only>" for a singleton, except that a band
starting at 0 kHz is labeled by its last element alone; and the seed
example [2998, 3007, 5508, 6529, 6532, 8921] at sample rate 500000
yields exactly the bands 2998-3007, 5508, 6529-6532 and 8921. -/
theorem freq_bands_spec (freqs : List Nat) (sample_rate : Nat)
    (hasc : freqs.Chain' (· < ·)) :
    (∀ p ∈ freq_bands_by_sample_rate freqs sample_rate,
        p.2 ≠ [] ∧ p.2.Chain' (· < ·) ∧
        p.2.getLast?.getD 0 - p.2.head?.getD 0 ≤
          get_max_dist_khz_by_sample_rate sample_rate % 65536 ∧
        p.2.getLast?.getD 0 - p.2.head?.getD 0 ≤
          get_max_dist_khz_by_sample_rate sample_rate ∧
        p.1 = (if p.2.head?.getD 0 = 0 then toString (p.2.getLast?.getD 0)
          else if p.2.head?.getD 0 = p.2.getLast?.getD 0
          then toString (p.2.head?.getD 0)
          else toString (p.2.head?.getD 0) ++ "-" ++
            toString (p.2.getLast?.getD 0))) ∧
    freq_bands_by_sample_rate [2998, 3007, 5508, 6529, 6532, 8921] 500000 =
      [("2998-3007", [2998, 3007]), ("5508", [5508]),
       ("6529-6532", [6529, 6532]), ("8921", [8921])] := by
  constructor
  · intro p hp
    obtain ⟨hne, hchain, hwidth⟩ :=
      freqBandsGo_ok (get_max_dist_khz_by_sample_rate sample_rate % 65536) freqs []
        (by simpa using hasc) (by simp) p hp
    obtain ⟨hlabel, hmem⟩ :=
      freqBandsGo_label (get_max_dist_khz_by_sample_rate sample_rate % 65536)
        freqs [] p hp
    refine ⟨hne, hchain, hwidth, le_trans hwidth (Nat.mod_le _ _), ?_⟩
    rw [hlabel]
    exact bandName_eq_of_ascending hne hchain
  · decide

/-- C3 counterexample: (a) at the u32 sample rate 100,000,000 the
claimed threshold is ⌊sr·0.9/1000⌋ = 90000, but utils.rs:23 wraps it
`as u16` to 24464, so the gap 29000 between 1000 and 30000 — within the
claimed threshold — nevertheless splits them into two bands; (b) a band
starting at 0 kHz is labeled by its last element alone, so the
ascending list [0, 5] yields the single band labeled "5", not the
"<first>-<last>" label "0-5" the claim assigns. -/
theorem freq_bands_counterexample :
    get_max_dist_khz_by_sample_rate 100000000 = 90000 ∧
    30000 - 1000 ≤ 90000 ∧
    get_max_dist_khz_by_sample_rate 100000000 % 65536 = 24464 ∧
    freq_bands_by_sample_rate [1000, 30000] 100000000 =
      [("1000", [1000]), ("30000", [30000])] ∧
    freq_bands_by_sample_rate [0, 5] 500000 = [("5", [0, 5])] := by
  exact ⟨rfl, by omega, rfl, by decide, by decide⟩

/-- Witness for C3's amended theorem at the seed input. -/
theorem freq_bands_spec_witness :
    ([2998, 3007, 5508, 6529, 6532, 8921] : List Nat).Chain' (· < ·) ∧
    (∀ p ∈ freq_bands_by_sample_rate [2998, 3007, 5508, 6529, 6532, 8921] 500000,
        p.2 ≠ [] ∧ p.2.Chain' (· < ·) ∧
        p.2.getLast?.getD 0 - p.2.head?.getD 0 ≤
          get_max_dist_khz_by_sample_rate 500000 % 65536 ∧
        p.2.getLast?.getD 0 - p.2.head?.getD 0 ≤
          get_max_dist_khz_by_sample_rate 500000 ∧
        p.1 = (if p.2.head?.getD 0 = 0 then toString (p.2.getLast?.getD 0)
          else if p.2.head?.getD 0 = p.2.getLast?.getD 0
          then toString (p.2.head?.getD 0)
          else toString (p.2.head?.getD 0) ++ "-" ++
            toString (p.2.getLast?.getD 0))) := by
  have hasc : ([2998, 3007, 5508, 6529, 6532, 8921] : List Nat).Chain' (· < ·) := by
    norm_num [List.chain'_cons]
  exact ⟨hasc, (freq_bands_spec [2998, 3007, 5508, 6529, 6532, 8921] 500000 hasc).1⟩

/-! ### serde_json values (inputs to validators and station ids) -/

/-- A `serde_json::Value`.  Numbers are modelled as integers: every value
the claims exercise is an integer, and none of the embedded code branches
on fractional parts. -/
inductive JValue where
  | null
  | bool (b : Bool)
  | num (n : Int)
  | str (s : String)
  | arr (elems : List JValue)

/-- `Value::as_str`. -/
def JValue.asStr : JValue → Option String
  | .str s => some s
  | _ => none

/-! ### src/modules/hfdl/validators.rs and method.rs -/

/-- Rust `str::to_lowercase`.  Unicode full lowercasing agrees with
per-character ASCII lowercasing on every input the embedded validators
compare against (the ASCII method names). -/
def rustToLowercase (s : String) : String :=
  String.mk (s.data.map (fun c =>
    if 'A' ≤ c ∧ c ≤ 'Z' then Char.ofNat (c.toNat + 32) else c))

/-- Embeds `validate_session_method` (validators.rs:7-16); the copy
`valid_session_method` in method.rs:3-12 is textually identical. -/
def validate_session_method (value : JValue) : Except String Unit :=
  match value.asStr with
  | none => Except.error "Expected string"
  | some method =>
    if rustToLowercase method = "random" ∨ rustToLowercase method = "static" ∨
        rustToLowercase method = "inc" ∨ rustToLowercase method = "dec" then
      Except.ok ()
    else
      Except.error "Unknown method type"

/-- C6: the `session_method` validator rejects every `track:<n>` value
(here `track:2`), although the CLI help (hfdl/mod.rs:117 lists
"Valid methods: random, inc, dec, static, track:GS_ID") and the
`track:` branch of `start_session` (hfdl/mod.rs:593-627) treat it as a
valid method; the four plain methods are accepted case-insensitively. -/
theorem validate_session_method_rejects_track :
    validate_session_method (JValue.str "track:2") =
      Except.error "Unknown method type" ∧
    validate_session_method (JValue.str "random") = Except.ok () ∧
    validate_session_method (JValue.str "STATIC") = Except.ok () ∧
    validate_session_method (JValue.str "inc") = Except.ok () ∧
    validate_session_method (JValue.str "dec") = Except.ok () ∧
    validate_session_method (JValue.num 3) = Except.error "Expected string" := by
  exact ⟨rfl, rfl, rfl, rfl, rfl, rfl⟩

/-! ### src/modules/hfdl/module.rs (sample-rate fit) -/

/-- Embeds `nearest_sample_rate` (module.rs:131-137): the first entry of
`sample_rates` that is ≥ the request (`position` + index). -/
def nearest_sample_rate (sample_rates : List Nat) (sample_rate : Nat) : Option Nat :=
  sample_rates.find? (fun x => sample_rate ≤ x)

/-- Embeds `calculate_actual_sample_rate` (module.rs:139-149).  The band
is cloned and sorted (`sort_unstable`, modelled by insertion sort:
only sortedness and the multiset of elements matter); the request is
`((max_freq - min_freq) as f64 * 1.2) as u64 * 1000`.  For every
`d = max_freq - min_freq < 2¹⁷` (u16 width), the f64 step equals
⌊6·d/5⌋: the stored constant is fl(1.2) = 1.2 − 1/(5·2⁵²), so when 5 ∣ d
the exact product N − d/(5·2⁵²) sits within half an ulp below the
integer N and rounds to exactly N, and otherwise the exact value is at
least 1/5 away from the next integer while the total rounding error is
below 2⁻³⁰. -/
def calculate_actual_sample_rate (sample_rates : List Nat) (bands : List Nat) :
    Option Nat :=
  let sorted := List.insertionSort (fun a b => a ≤ b) bands
  match sorted.head?, sorted.getLast? with
  | some min_freq, some max_freq =>
      nearest_sample_rate sample_rates (6 * (max_freq - min_freq) / 5 * 1000)
  | _, _ => none

/-- The sample-rate fit as the SPEC words it for claim C7 ("nearest
device-supported rate ≥ (max−min) · 1200" Hz, no intermediate
truncation).  Defined only to compare against
`calculate_actual_sample_rate`; not a translation of the source. -/
def calculate_actual_sample_rate_specStated (sample_rates : List Nat)
    (bands : List Nat) : Option Nat :=
  let sorted := List.insertionSort (fun a b => a ≤ b) bands
  match sorted.head?, sorted.getLast? with
  | some min_freq, some max_freq =>
      nearest_sample_rate sample_rates ((max_freq - min_freq) * 1200)
  | _, _ => none

/-- C7 counterexample: for the band [3000, 3001] (width 1 kHz) and the
single supported rate 1100 Hz, the code requests
⌊1·1.2⌋·1000 = 1000 Hz and returns 1100, although 1100 is smaller than
(max−min)·1200 = 1200, so the returned rate is not ≥ (max−min)·1200 as
the claim states (the spec-stated function finds no rate at all). -/
theorem calculate_actual_sample_rate_counterexample :
    calculate_actual_sample_rate [1100] [3000, 3001] = some 1100 ∧
    calculate_actual_sample_rate_specStated [1100] [3000, 3001] = none ∧
    ¬((3001 - 3000) * 1200 ≤ 1100) := by
  refine ⟨?_, ?_, by omega⟩ <;> decide

theorem find?_ge_min_of_sorted :
    ∀ {l : List Nat}, l.Sorted (· ≤ ·) → ∀ {req r : Nat},
      l.find? (fun x => req ≤ x) = some r → ∀ r' ∈ l, req ≤ r' → r ≤ r' := by
  intro l hl
  induction l with
  | nil => intro req r h; simp at h
  | cons a t ih =>
    intro req r hfind r' hr' hreq
    by_cases ha : req ≤ a
    · rw [List.find?_cons_of_pos _ (by simpa using ha)] at hfind
      have hra : r = a := by simpa using hfind.symm
      subst hra
      rcases List.mem_cons.mp hr' with h | h
      · omega
      · exact List.rel_of_sorted_cons hl r' h
    · rw [List.find?_cons_of_neg _ (by simpa using ha)] at hfind
      rcases List.mem_cons.mp hr' with h | h
      · omega
      · exact ih (List.sorted_cons.mp hl).2 hfind r' h hreq

theorem sorted_getLast_ge :
    ∀ {l : List Nat}, l.Sorted (· ≤ ·) → ∀ {mx : Nat},
      l.getLast? = some mx → ∀ x ∈ l, x ≤ mx := by
  intro l
  induction l with
  | nil => intro _ mx h; simp at h
  | cons a t ih =>
    intro hl mx hlast x hx
    cases t with
    | nil =>
      simp only [List.getLast?_singleton, Option.some.injEq] at hlast
      simp only [List.mem_singleton] at hx
      omega
    | cons b t' =>
      rw [List.getLast?_cons_cons] at hlast
      have hbt : b ≤ mx := ih (List.sorted_cons.mp hl).2 hlast b (List.mem_cons_self b t')
      rcases List.mem_cons.mp hx with h | h
      · subst h
        exact le_trans (List.rel_of_sorted_cons hl b (List.mem_cons_self b t')) hbt
      · exact ih (List.sorted_cons.mp hl).2 hlast x h

/-- C7 (amended): for a sorted device-rate list and a non-empty band,
`calculate_actual_sample_rate` returns the smallest supported rate that
is ≥ ⌊(max−min)·1.2⌋·1000 Hz — the kHz width is scaled by 1.2 and
truncated to an integer *before* the ·1000 Hz conversion, so the
request can fall short of (max−min)·1200 — and fails exactly when no
supported rate reaches that request. -/
theorem calculate_actual_sample_rate_amended (sample_rates bands : List Nat)
    (hs : sample_rates.Sorted (· ≤ ·)) (hb : bands ≠ []) :
    ∃ mn mx,
      (List.insertionSort (fun a b => a ≤ b) bands).head? = some mn ∧
      (List.insertionSort (fun a b => a ≤ b) bands).getLast? = some mx ∧
      (∀ x ∈ bands, mn ≤ x ∧ x ≤ mx) ∧
      calculate_actual_sample_rate sample_rates bands =
        nearest_sample_rate sample_rates (6 * (mx - mn) / 5 * 1000) ∧
      (∀ r, calculate_actual_sample_rate sample_rates bands = some r →
        r ∈ sample_rates ∧ 6 * (mx - mn) / 5 * 1000 ≤ r ∧
        ∀ r' ∈ sample_rates, 6 * (mx - mn) / 5 * 1000 ≤ r' → r ≤ r') ∧
      (calculate_actual_sample_rate sample_rates bands = none →
        ∀ r' ∈ sample_rates, r' < 6 * (mx - mn) / 5 * 1000) := by
  have hperm : List.Perm (List.insertionSort (fun a b => a ≤ b) bands) bands :=
    List.perm_insertionSort _ bands
  have hsorted : (List.insertionSort (fun a b => a ≤ b) bands).Sorted (fun a b => a ≤ b) :=
    List.sorted_insertionSort _ bands
  have hne : List.insertionSort (fun a b => a ≤ b) bands ≠ [] := by
    intro h
    exact hb (List.eq_nil_of_length_eq_zero (by
      have := hperm.length_eq
      simp [h] at this
      omega))
  obtain ⟨mn, tl, hcons⟩ := List.exists_cons_of_ne_nil hne
  have hmn : (List.insertionSort (fun a b => a ≤ b) bands).head? = some mn := by
    rw [hcons]; rfl
  obtain ⟨mx, hmx⟩ :
      ∃ mx, (List.insertionSort (fun a b => a ≤ b) bands).getLast? = some mx := by
    rw [hcons]
    exact ⟨(mn :: tl).getLast (by simp), List.getLast?_eq_getLast _ _⟩
  refine ⟨mn, mx, hmn, hmx, ?_, ?_, ?_, ?_⟩
  · intro x hx
    have hxs : x ∈ List.insertionSort (fun a b => a ≤ b) bands := hperm.mem_iff.mpr hx
    constructor
    · rw [hcons] at hxs hsorted
      rcases List.mem_cons.mp hxs with h | h
      · omega
      · exact List.rel_of_sorted_cons hsorted x h
    · exact sorted_getLast_ge hsorted hmx x hxs
  · simp only [calculate_actual_sample_rate]
    rw [hmn, hmx]
  · intro r hr
    simp only [calculate_actual_sample_rate] at hr
    rw [hmn, hmx] at hr
    refine ⟨List.mem_of_find?_eq_some hr, by simpa using List.find?_some hr, ?_⟩
    exact fun r' h1 h2 => find?_ge_min_of_sorted hs hr r' h1 h2
  · intro hnone r' hr'
    simp only [calculate_actual_sample_rate] at hnone
    rw [hmn, hmx] at hnone
    have := List.find?_eq_none.mp hnone r' hr'
    simpa using this

/-- Witness for C7's amended theorem at rates [256000, 512000] and band
[2998, 3007]. -/
theorem calculate_actual_sample_rate_amended_witness :
    ([256000, 512000] : List Nat).Sorted (· ≤ ·) ∧
    (([2998, 3007] : List Nat) ≠ []) ∧
    (∃ mn mx,
      (List.insertionSort (fun a b => a ≤ b) [2998, 3007]).head? = some mn ∧
      (List.insertionSort (fun a b => a ≤ b) [2998, 3007]).getLast? = some mx ∧
      (∀ x ∈ ([2998, 3007] : List Nat), mn ≤ x ∧ x ≤ mx) ∧
      calculate_actual_sample_rate [256000, 512000] [2998, 3007] =
        nearest_sample_rate [256000, 512000] (6 * (mx - mn) / 5 * 1000) ∧
      (∀ r, calculate_actual_sample_rate [256000, 512000] [2998, 3007] = some r →
        r ∈ ([256000, 512000] : List Nat) ∧ 6 * (mx - mn) / 5 * 1000 ≤ r ∧
        ∀ r' ∈ ([256000, 512000] : List Nat), 6 * (mx - mn) / 5 * 1000 ≤ r' → r ≤ r') ∧
      (calculate_actual_sample_rate [256000, 512000] [2998, 3007] = none →
        ∀ r' ∈ ([256000, 512000] : List Nat), r' < 6 * (mx - mn) / 5 * 1000)) := by
  have h1 : ([256000, 512000] : List Nat).Sorted (· ≤ ·) := by
    simp [List.sorted_cons]
  have h2 : (([2998, 3007] : List Nat) ≠ []) := by simp
  exact ⟨h1, h2, calculate_actual_sample_rate_amended [256000, 512000] [2998, 3007] h1 h2⟩

/-! ### src/modules/hfdl/mod.rs, `start_session` random branch -/

/-- Embeds the candidate filter of the `random` session method
(mod.rs:575-583): when a current listening band exists, its head
frequency and the previously drawn random band head are removed from the
candidate pool. -/
def randomCandidatePool (candidates : List Nat) (last_listening_freq : Option Nat)
    (last_random_freq_band : Nat) : List Nat :=
  match last_listening_freq with
  | some first_freq =>
      candidates.filter (fun x => x ≠ first_freq ∧ x ≠ last_random_freq_band)
  | none => candidates

/-- The exclusive upper bound passed to `rng.gen_range` (mod.rs:586):
`0..(candidates.len() - 1)`. -/
def randomPickUpper (pool : List Nat) : Nat := pool.length - 1

/-- The band head selected when the generator draws index `r`
(mod.rs:586-587): `candidates[new_idx]`.  `none` models indices that
`gen_range(0..(len - 1))` can never return; when `len ≤ 1` the range is
empty and rand's `gen_range` panics. -/
def randomPick (pool : List Nat) (r : Nat) : Option Nat :=
  if r < randomPickUpper pool then pool[r]? else none

/-- C8 (code_bug evidence): with the post-exclusion candidate pool
[3007, 8921], the drawn index is taken from `gen_range(0..1)`, so 8921
can never be selected — the only reachable pick is 3007 — and a
singleton pool yields the empty range `0..0`, on which `gen_range`
panics; the claim's "every remaining candidate has equal, non-zero
probability" fails. -/
theorem start_session_random_skips_last_candidate :
    (∀ r : Nat, randomPick [3007, 8921] r ≠ some 8921) ∧
    randomPick [3007, 8921] 0 = some 3007 ∧
    randomPickUpper [8921] = 0 ∧
    randomCandidatePool [2998, 3007, 8921] (some 2998) 0 = [3007, 8921] := by
  refine ⟨?_, rfl, rfl, by decide⟩
  intro r
  unfold randomPick randomPickUpper
  by_cases h : r < 1
  · have hr : r = 0 := Nat.lt_one_iff.mp h
    subst hr
    simp
  · simp only [List.length_cons, List.length_nil]
    rw [if_neg (by omega)]
    simp

/-! ### src/modules/settings.rs (ground-station registry) -/

/-- The id matcher used by the station lookup closure in
`update_station_by_frequencies` (settings.rs:96-101): null matches null,
strings compare by `==`, numbers compare by `==`; every other pairing —
including two equal booleans or arrays — is `false`. -/
def idMatches (a b : JValue) : Bool :=
  match a, b with
  | .null, .null => true
  | .str x, .str y => x == y
  | .num x, .num y => x == y
  | _, _ => false

/-- `FreqInfo` (settings.rs:13-29): `khz` plus a `last_updated`
timestamp.  `Hash`/`PartialEq` are implemented on `khz` alone; times are
modelled as integer seconds. -/
structure FreqInfo where
  khz : Nat
  last_updated : Int
deriving DecidableEq

/-- `GroundStation` (settings.rs:31-40).  The `HashSet<FreqInfo>` is
modelled as a list whose `khz` values are pairwise distinct (every set
the embedded code builds has this shape). -/
structure GroundStation where
  id : JValue
  name : Option String
  active_frequencies : List FreqInfo

/-- `GroundStation::invalidate` (settings.rs:43-47): retain entries with
`now - last_updated < stale_after`. -/
def GroundStation.invalidate (now stale_after : Int) (gs : GroundStation) :
    GroundStation :=
  { gs with active_frequencies :=
      gs.active_frequencies.filter (fun x => now - x.last_updated < stale_after) }

/-- `GroundStation::pretty_id` (settings.rs:49-55). -/
def prettyId (id : JValue) : String :=
  match id with
  | .num n => toString n
  | .str s => s
  | _ => "No ID"

/-- `GroundStation::pretty_name` (settings.rs:57-59). -/
def prettyName (name : Option String) : String := name.getD "No Name"

/-- Equality of two `HashSet<FreqInfo>` values (the
`station.active_frequencies != new_freq_set` comparison,
settings.rs:125): `HashSet` equality is mutual containment under the
khz-only `Eq`/`Hash` of `FreqInfo`, so timestamps are ignored. -/
def freqSetEq (a b : List FreqInfo) : Bool :=
  a.all (fun x => b.any (fun y => y.khz == x.khz)) &&
  b.all (fun x => a.any (fun y => y.khz == x.khz))

/-- The `new_freq_set` construction (settings.rs:116-122): collecting
`FreqInfo { khz, last_updated: now }` into a `HashSet` keyed on khz
keeps one entry per distinct khz. -/
def mkFreqSet (freqs : List Nat) (now : Int) : List FreqInfo :=
  freqs.dedup.map (fun k => { khz := k, last_updated := now })

/-- `GroundStationChangeEvent` (settings.rs:76-82). -/
structure GroundStationChangeEvent where
  ts : Int
  id : String
  name : String
  old_freq_set : List Nat
  new_freq_set : List Nat

/-- The per-station body of `update_station_by_frequencies`
(settings.rs:112-142): age out stale entries, build the refreshed set,
emit an event iff the khz-sets differ, then replace the stored set.
`Utc::now()` is passed in as `now`. -/
def applyStationUpdate (now stale_timeout_secs : Int) (freqs : List Nat)
    (st : GroundStation) : GroundStation × Option GroundStationChangeEvent :=
  let st1 := st.invalidate now stale_timeout_secs
  let new_freq_set := mkFreqSet freqs now
  let changed := !(freqSetEq st1.active_frequencies new_freq_set)
  let event := if changed then
      some { ts := now, id := prettyId st1.id, name := prettyName st1.name,
             old_freq_set := st1.active_frequencies.map (fun x => x.khz),
             new_freq_set := freqs }
    else none
  ({ st1 with active_frequencies := new_freq_set }, event)

/-- Embeds `update_station_by_frequencies` (settings.rs:84-143).  The
Rust looks up the first station whose id matches (`position`), mutating
it in place, and pushes a fresh station at the end on a miss; that is
transcribed as first-match recursion over the station list.
`ModuleSettings` is narrowed to its `stations` field, the only one this
function reads or writes. -/
def update_station_by_frequencies (now : Int) (stations : List GroundStation)
    (stale_timeout_secs : Int) (station_id : JValue) (station_name : Option String)
    (freqs : List Nat) : List GroundStation × Option GroundStationChangeEvent :=
  match stations with
  | [] =>
    let r := applyStationUpdate now stale_timeout_secs freqs
      { id := station_id, name := station_name, active_frequencies := [] }
    ([r.1], r.2)
  | s :: rest =>
    if idMatches s.id station_id then
      let r := applyStationUpdate now stale_timeout_secs freqs s
      (r.1 :: rest, r.2)
    else
      let r := update_station_by_frequencies now rest stale_timeout_secs
        station_id station_name freqs
      (s :: r.1, r.2)

theorem invalidate_mkFreqSet_fresh (freqs : List Nat) (t1 t2 stale : Int)
    (h : t2 - t1 < stale) :
    (mkFreqSet freqs t1).filter (fun x => t2 - x.last_updated < stale) =
      mkFreqSet freqs t1 := by
  apply List.filter_eq_self.mpr
  intro x hx
  simp only [mkFreqSet, List.mem_map] at hx
  obtain ⟨k, _, hk⟩ := hx
  subst hk
  simpa using h

theorem freqSetEq_mkFreqSet (freqs : List Nat) (t1 t2 : Int) :
    freqSetEq (mkFreqSet freqs t1) (mkFreqSet freqs t2) = true := by
  simp only [freqSetEq, Bool.and_eq_true, List.all_eq_true, List.any_eq_true]
  constructor
  · intro x hx
    simp only [mkFreqSet, List.mem_map] at hx
    obtain ⟨k, hk, hkx⟩ := hx
    exact ⟨{ khz := k, last_updated := t2 }, by
      simp only [mkFreqSet, List.mem_map]
      exact ⟨k, hk, rfl⟩, by simp [← hkx]⟩
  · intro x hx
    simp only [mkFreqSet, List.mem_map] at hx
    obtain ⟨k, hk, hkx⟩ := hx
    exact ⟨{ khz := k, last_updated := t1 }, by
      simp only [mkFreqSet, List.mem_map]
      exact ⟨k, hk, rfl⟩, by simp [← hkx]⟩

theorem applyStationUpdate_none_of_fresh (st : GroundStation)
    (freqs : List Nat) (t1 t2 stale : Int)
    (hact : st.active_frequencies = mkFreqSet freqs t1)
    (h : t2 - t1 < stale) :
    (applyStationUpdate t2 stale freqs st).2 = none := by
  have h1 : (st.invalidate t2 stale).active_frequencies = mkFreqSet freqs t1 := by
    simp only [GroundStation.invalidate, hact]
    exact invalidate_mkFreqSet_fresh freqs t1 t2 stale h
  simp [applyStationUpdate, h1, freqSetEq_mkFreqSet freqs t1 t2]

/-- C9: applying `update_station_by_frequencies` twice in succession
with the same station id and frequency set, with no entry going stale
in between, emits no GroundStationChangeEvent on the second application
— frequency-set equality is keyed on `khz` only, so the refreshed
`last_updated` timestamps do not make the sets unequal — hence at most
one event overall.  The id is required to be a shape on which the
matcher is reflexive (null, number, or string: exactly the "string or
integer key" shapes of the data model; the matcher returns false on any
other pairing). -/
theorem update_station_by_frequencies_idempotent
    (stations : List GroundStation) (t1 t2 stale : Int) (id : JValue)
    (name : Option String) (freqs : List Nat)
    (hid : idMatches id id = true) (h : t2 - t1 < stale) :
    (update_station_by_frequencies t2
      (update_station_by_frequencies t1 stations stale id name freqs).1
      stale id name freqs).2 = none := by
  induction stations with
  | nil =>
    simp only [update_station_by_frequencies, applyStationUpdate]
    rw [if_pos (by simpa [GroundStation.invalidate] using hid)]
    exact applyStationUpdate_none_of_fresh _ freqs t1 t2 stale (by
      simp [GroundStation.invalidate]) h
  | cons s rest ih =>
    by_cases hm : idMatches s.id id = true
    · simp only [update_station_by_frequencies, if_pos hm]
      have hid1 : idMatches (applyStationUpdate t1 stale freqs s).1.id id = true := by
        simpa [applyStationUpdate, GroundStation.invalidate] using hm
      simp only [update_station_by_frequencies, if_pos hid1]
      exact applyStationUpdate_none_of_fresh _ freqs t1 t2 stale (by
        simp [applyStationUpdate, GroundStation.invalidate]) h
    · simp only [update_station_by_frequencies, if_neg hm]
      exact ih

/-- Witness for C9: a numeric id 2, the set {10027} applied twice. -/
theorem update_station_by_frequencies_idempotent_witness :
    idMatches (JValue.num 2) (JValue.num 2) = true ∧ ((5 : Int) - 3 < 2700) ∧
    (update_station_by_frequencies 5
      (update_station_by_frequencies 3 [] 2700 (JValue.num 2)
        (some "Molokai") [10027]).1
      2700 (JValue.num 2) (some "Molokai") [10027]).2 = none := by
  refine ⟨rfl, by norm_num, ?_⟩
  exact update_station_by_frequencies_idempotent [] 3 5 2700 (JValue.num 2)
    (some "Molokai") [10027] rfl (by norm_num)

/-! ### src/modules/hfdl/schedule.rs -/

/-- Numeric value of a digit string (`str::parse` on digits-only
captures). -/
def digitVal (c : Char) : Nat := c.toNat - '0'.toNat

def natOfDigits (cs : List Char) : Nat :=
  cs.foldl (fun n c => n * 10 + digitVal c) 0

/-- Match a literal character sequence at the front of the input,
returning the remainder. -/
def dropLiteral : List Char → List Char → Option (List Char)
  | [], cs => some cs
  | _ :: _, [] => none
  | p :: ps, c :: cs => if c = p then dropLiteral ps cs else none

/-- The hour group of `SCHEDULE_ENTRY_FMT` (schedule.rs:11):
`([0-9]|[01][1-9]|2[0-3])`, alternatives in regex order, each returning
(captured chars, remaining input).  Note the second alternative is
`[01][1-9]` — its second character excludes 0 — so the two-digit hours
"00" and "10" have no matching alternative. -/
def hourAlternatives : List Char → List (List Char × List Char)
  | [] => []
  | c :: cs =>
    (if c.isDigit then [([c], cs)] else []) ++
    (match cs with
     | c2 :: cs2 =>
       (if (c = '0' ∨ c = '1') ∧ ('1' ≤ c2 ∧ c2 ≤ '9') then [([c, c2], cs2)] else []) ++
       (if c = '2' ∧ ('0' ≤ c2 ∧ c2 ≤ '3') then [([c, c2], cs2)] else [])
     | [] => [])

/-- The part of `SCHEDULE_ENTRY_FMT` after the hour group:
`:([0-5][0-9]),band_contains=([0-9]{4,5})`.  `{4,5}` is greedy and
nothing follows it in the pattern, so the capture takes a fifth digit
exactly when one is present.  Returns (minute, frequency digits). -/
def matchEntryTail (cs : List Char) : Option (Nat × List Char) :=
  match cs with
  | ':' :: m1 :: m2 :: rest =>
    if ('0' ≤ m1 ∧ m1 ≤ '5') ∧ m2.isDigit then
      match dropLiteral (",band_contains=".data) rest with
      | some (d1 :: d2 :: d3 :: d4 :: r3) =>
        if d1.isDigit ∧ d2.isDigit ∧ d3.isDigit ∧ d4.isDigit then
          match r3 with
          | d5 :: _ =>
            if d5.isDigit then some (natOfDigits [m1, m2], [d1, d2, d3, d4, d5])
            else some (natOfDigits [m1, m2], [d1, d2, d3, d4])
          | [] => some (natOfDigits [m1, m2], [d1, d2, d3, d4])
        else none
      | _ => none
    else none
  | _ => none

/-- Try the hour alternatives in regex (leftmost-alternative) order,
backtracking to the next alternative when the tail fails. -/
def tryHourAlternatives : List (List Char × List Char) → Option (Nat × Nat × List Char)
  | [] => none
  | (h, rest) :: alts =>
    match matchEntryTail rest with
    | some (m, f) => some (natOfDigits h, m, f)
    | none => tryHourAlternatives alts

/-- Match `SCHEDULE_ENTRY_FMT` anchored at the current position:
`time=` + hour + tail. -/
def matchEntryAt (cs : List Char) : Option (Nat × Nat × List Char) :=
  match dropLiteral ("time=".data) cs with
  | none => none
  | some r => tryHourAlternatives (hourAlternatives r)

/-- `Regex::captures` (schedule.rs:19): the leftmost position at which
the pattern matches, scanning start positions left to right. -/
def findEntryMatch : List Char → Option (Nat × Nat × List Char)
  | [] => none
  | c :: cs =>
    match matchEntryAt (c :: cs) with
    | some x => some x
    | none => findEntryMatch cs

/-- Rust `str::split(";")`, empty pieces included. -/
def splitSemicolons : List Char → List Char → List (List Char)
  | acc, [] => [acc.reverse]
  | acc, c :: cs =>
    if c = ';' then acc.reverse :: splitSemicolons [] cs
    else splitSemicolons (c :: acc) cs

/-- The per-token loop of `parse_session_schedule` (schedule.rs:18-48).
Times are in whole minutes of the local calendar: `now` is the current
local instant, `now / 1440` its local midnight, and
`date_naive().and_hms_opt(hour, min, 0)` is that midnight plus the
entry's time of day (always valid: the regex bounds hour ≤ 23 and
min ≤ 59, and `Local.from_local_datetime(..).latest()` is total in a
model without DST gaps — no claim involves one).  An entry earlier
than `now` is pushed to the next day (`checked_add_days(1)`).  The hour
and minute captures always fit `u8`; the frequency capture can carry
five digits, so its `parse::<u16>` fails above 65535. -/
def parseScheduleEntries (now : Nat) (value : String) :
    List (List Char) → Except String (List (Nat × Nat))
  | [] => Except.ok []
  | token :: rest =>
    match findEntryMatch token with
    | none => Except.error ("Bad schedule entry format: " ++ value)
    | some (hour, minute, freqChars) =>
      let freq := natOfDigits freqChars
      if 65535 < freq then
        Except.error ("Bad target frequency: " ++ String.mk token)
      else
        let dt0 := (now / 1440) * 1440 + hour * 60 + minute
        let dt := if dt0 < now then dt0 + 1440 else dt0
        match parseScheduleEntries now value rest with
        | Except.ok l => Except.ok ((dt, freq) :: l)
        | Except.error e => Except.error e

/-- `Vec::dedup_by(|a, b| a.0 == b.0)` (schedule.rs:51): drop each
element whose instant equals the last kept element's instant. -/
def dedupDtGo (prev : Nat) : List (Nat × Nat) → List (Nat × Nat)
  | [] => []
  | b :: rest => if b.1 = prev then dedupDtGo prev rest else b :: dedupDtGo b.1 rest

def dedupByDt : List (Nat × Nat) → List (Nat × Nat)
  | [] => []
  | a :: rest => a :: dedupDtGo a.1 rest

/-- Embeds `parse_session_schedule` (schedule.rs:8-54): split on ';',
match each token against `SCHEDULE_ENTRY_FMT`, pair with the next
matching instant, `sort_by(a.cmp(b))` — lexicographic on
(instant, frequency), modelled with a stable insertion sort — and dedup
consecutive equal instants. -/
def parse_session_schedule (now : Nat) (value : String) :
    Except String (List (Nat × Nat)) :=
  match parseScheduleEntries now value (splitSemicolons [] value.data) with
  | Except.error e => Except.error e
  | Except.ok entries =>
    let sorted := List.insertionSort
      (fun a b : Nat × Nat => a.1 < b.1 ∨ (a.1 = b.1 ∧ a.2 ≤ b.2)) entries
    Except.ok (dedupByDt sorted)

/-- C5 (code_bug evidence): at local clock 10:00 (minute 600), the
schedule entry `time=10:30,band_contains=6529` fails to parse — the
hour group `[0-9]|[01][1-9]|2[0-3]` has no alternative matching the
two-digit hour 10 although 10 ∈ [0,23] and the CLI help (mod.rs:116)
documents `time=<HOUR_0_TO_23>` — while the seed schedule parses to
today 15:00 ↦ 10027 followed by tomorrow 03:30 ↦ 6529 exactly as the
claim states. -/
theorem parse_session_schedule_hour10 :
    parse_session_schedule 600 "time=10:30,band_contains=6529" =
      Except.error "Bad schedule entry format: time=10:30,band_contains=6529" ∧
    parse_session_schedule 600
        "time=03:30,band_contains=6529;time=15:00,band_contains=10027" =
      Except.ok [(900, 10027), (1650, 6529)] ∧
    parse_session_schedule 600 "time=20:30,band_contains=6529" =
      Except.ok [(1230, 6529)] ∧
    parse_session_schedule 600 "time=03:30,band_contains=99999" =
      Except.error "Bad target frequency: time=03:30,band_contains=99999" := by
  exact ⟨rfl, rfl, rfl, rfl⟩

/-! ### src/modules/hfdl/systable.rs -/

/-- `GroundStation` of the system table (systable.rs:10-17):
`position = (lat, lon)` as f64, modelled as exact rationals. -/
structure SysGroundStation where
  id : Nat
  name : String
  lat : Rat
  lon : Rat
  frequencies : List Nat

/-- `SystemTable` (systable.rs:88-94), immutable after load. -/
structure SystemTable where
  version : Nat
  stations : List SysGroundStation

/-- `SystemTable::by_id` (systable.rs:101-103). -/
def SystemTable.by_id (t : SystemTable) (id : Nat) : Option SysGroundStation :=
  t.stations.find? (fun x => x.id == id)

/-! ### src/utils/mod.rs and src/utils/timestamp.rs -/

/-- `normalize_tail` (utils/mod.rs:6-12): remove every '.', '-' and
space. -/
def normalize_tail (tail : String) : String :=
  String.mk (tail.data.filter (fun c => ¬(c = '.' ∨ c = '-' ∨ c = ' ')))

/-- Rust `u64 as i64` (two's-complement reinterpretation). -/
def u64AsI64 (n : Nat) : Int :=
  if n < 9223372036854775808 then (n : Int) else (n : Int) - 18446744073709551616

/-- `split_unix_time_to_utc_datetime` (timestamp.rs:4-8): chrono's
`NaiveDateTime::from_timestamp_opt` is `Some` iff the nanosecond count
is below 2·10⁹ (the documented leap-second allowance) and the seconds
lie inside chrono's representable year range ±262143 (the two range
constants below approximate that boundary; no theorem in this file
depends on them — every instant used is either far inside the range or
rejected by the nanosecond rule).  The instant is carried as
(seconds, nanoseconds). -/
def split_unix_time_to_utc_datetime (secs : Int) (nsecs : Nat) :
    Option (Int × Nat) :=
  if nsecs < 2000000000 ∧ -8334632851200 ≤ secs ∧ secs ≤ 8210298412799 then
    some (secs, nsecs)
  else none

/-- `nearest_time_in_past` (timestamp.rs:17-28): the latest instant not
after `dt` whose time of day is (hour, min, sec); `and_hms_opt` fails
when hour > 23, min > 59 or sec > 59 (the HFNPDU fields are u8 and the
serde_valid bounds are never run, so out-of-range values reach this
check).  The `past > dt` comparison reduces to comparing whole seconds
because the candidate has zero sub-second part.  `checked_sub_days`
fails only in the first day of chrono's range, far outside any instant
used here. -/
def nearest_time_in_past (dtSec : Int) (hour min sec : Nat) : Option Int :=
  if hour ≤ 23 ∧ min ≤ 59 ∧ sec ≤ 59 then
    let day := Int.fdiv dtSec 86400
    let cand := day * 86400 + (hour : Int) * 3600 + (min : Int) * 60 + (sec : Int)
    some (if dtSec < cand then cand - 86400 else cand)
  else none

/-! ### src/modules/hfdl/frame.rs (raw decoder frame)

`process_message` deserializes with plain `serde_json::from_str::<Frame>`
(mod.rs:738); the `serde_valid` attributes on these structs are never
invoked there, so the embedded field types carry no range restrictions. -/

/-- `EntityType` (common/formats/mod.rs:4-8). -/
inductive EntityType where
  | Aircraft
  | GroundStation
  | Reserved
deriving DecidableEq, BEq

/-- Raw `Entity` (hfdl/frame.rs:17-28); `ac_info` is narrowed to its
only field `icao`. -/
structure RawEntity where
  entity_type : String
  id : Nat
  name : Option String
  ac_info : Option String

/-- `Entity::kind` (hfdl/frame.rs:30-40): lowercases the type and hits
`unreachable!` — a panic — for anything other than "aircraft" or
"ground station" (including the "reserved" that `validate_entity_type`
would accept); `none` models that panic. -/
def RawEntity.kindOf (e : RawEntity) : Option EntityType :=
  let n := rustToLowercase e.entity_type
  if n = "aircraft" then some EntityType.Aircraft
  else if n = "ground station" then some EntityType.GroundStation
  else none

/-- `WKTPoint` (common/wkt.rs), coordinates as exact rationals. -/
structure WKTPoint where
  x : Rat
  y : Rat
  z : Rat

/-- Modelled from the spec: `WKTPoint::valid` is called at mod.rs:971
but absent from src's wkt.rs (version skew).  §4.2: "If `hfnpdu.pos` is
valid (non-zero) set `src.coords`" — valid iff the (x, y) coordinates
are not both zero. -/
def WKTPoint.valid (p : WKTPoint) : Bool := ¬(p.x = 0 ∧ p.y = 0)

/-- CFF `Entity` (common/frame.rs:67-91). -/
structure CFEntity where
  kind : String
  icao : Option String
  gs : Option String
  id : Option Nat
  callsign : Option String
  tail : Option String
  coords : Option WKTPoint

/-- `Entity::to_common_frame_entity` (hfdl/frame.rs:42-66): `none`
models the panic propagated from `Entity::kind`. -/
def RawEntity.to_common_frame_entity (e : RawEntity) (systable : SystemTable) :
    Option CFEntity :=
  match e.kindOf with
  | none => none
  | some k =>
    some { kind := e.entity_type,
           icao := e.ac_info,
           gs := match k, e.name with
                 | EntityType.GroundStation, some n => some n
                 | _, _ => none,
           id := some e.id,
           callsign := none,
           tail := none,
           coords := match k, systable.by_id e.id with
                     | EntityType.GroundStation, some st =>
                       some { x := st.lon, y := st.lat, z := 0 }
                     | _, _ => none }

/-- `FrequencyInfo` (hfdl/frame.rs:69-76): `freq` is f64 kHz. -/
structure RawFreqInfo where
  id : Nat
  freq : Rat

/-- Rust `f64 as u64`: truncation toward zero, saturating at 0 for
negative values (and at u64::MAX far above any frequency). -/
def f64AsU64 (q : Rat) : Nat := q.floor.toNat

/-- SPDU `GroundStation` status entry (hfdl/frame.rs:78-87). -/
structure SpduGsStatus where
  gs : RawEntity
  utc_sync : Bool
  freqs : List RawFreqInfo

/-- `SPDU` (hfdl/frame.rs:267-280). -/
structure RawSPDU where
  err : Bool
  src : RawEntity
  spdu_version : Nat
  change_note : String
  systable_version : Nat
  gs_status : List SpduGsStatus

structure RawPosition where
  lat : Rat
  lon : Rat

structure RawHFNPDUTime where
  hour : Nat
  min : Nat
  sec : Nat

structure RawACARS where
  err : Bool
  crc_ok : Bool
  more : Bool
  reg : String
  mode : String
  label : String
  sublabel : Option String
  cfi : Option String
  mfi : Option String
  blk_id : String
  ack : String
  flight : Option String
  msg_num : Option String
  msg_num_seq : Option String
  msg_text : String

structure RawReason where
  code : Nat
  descr : String

structure RawPduType where
  id : Nat
  name : String

structure RawFreqData where
  gs : RawEntity
  listening_on_freqs : List RawFreqInfo
  heard_on_freqs : List RawFreqInfo

/-- `HFNPDU` (hfdl/frame.rs:199-233), narrowed to the fields
`process_message` reads. -/
structure RawHFNPDU where
  err : Bool
  kind : RawPduType
  flight_id : Option String
  pos : Option RawPosition
  acars : Option RawACARS
  time : Option RawHFNPDUTime
  freq_data : Option (List RawFreqData)
  last_freq_change_cause : Option RawReason

/-- `LPDU` (hfdl/frame.rs:235-256); `ac_info` narrowed to its `icao`. -/
structure RawLPDU where
  err : Bool
  src : RawEntity
  dst : RawEntity
  kind : RawPduType
  hfnpdu : Option RawHFNPDU
  ac_info : Option String
  assigned_ac_id : Option Nat
  reason : Option RawReason

/-- `Timestamp` (common/formats/mod.rs:18-24): `sec`/`usec` are u64 and
the `usec ≤ 999999` validation never runs. -/
structure RawTimestamp where
  sec : Nat
  usec : Nat

structure RawApp where
  name : String
  version : String

/-- `HFDL` (hfdl/frame.rs:282-306): `freq` is a u64 in Hz as reported
by dumphfdl; the serde_valid 2000..22000 bounds never run.  Floats are
modelled as exact rationals. -/
structure RawHFDL where
  app : RawApp
  ts : RawTimestamp
  freq : Nat
  bit_rate : Nat
  sig_level : Rat
  noise_level : Rat
  freq_skew : Rat
  slot : String
  spdu : Option RawSPDU
  lpdu : Option RawLPDU

/-- `Frame` (hfdl/frame.rs:314-318). -/
structure Frame where
  hfdl : RawHFDL

/-- `HFDL::freq_as_mhz` (hfdl/frame.rs:308-312): `freq as f64 /
1000000.0`, exact as a rational; the f64 division is monotone and maps
the range endpoints 2·10⁶ and 1.63·10⁹ Hz (both below 2⁵³) to exactly
2.0 and 1630.0, so every comparison the claims make is preserved. -/
def RawHFDL.freq_as_mhz (h : RawHFDL) : Rat := (h.freq : Rat) / 1000000

/-! ### The six-argument station update called by hfdl/mod.rs -/

/-- Rust `value.to_lowercase().trim()` on id strings. -/
def trimLower (s : String) : String := (rustToLowercase s).trim

/-- Modelled from the spec: the station-id equality of the six-argument
`update_station_by_frequencies` variant (see below) — §4.4 "Look up the
station by `id` equality (Number/Number or String/String, trimmed
lowercase); create on miss." -/
def idMatchesV2 (a b : JValue) : Bool :=
  match a, b with
  | .num x, .num y => x == y
  | .str x, .str y => trimLower x == trimLower y
  | _, _ => false

/-- `common::events::GroundStationChangeEvent` (common/events.rs:4-10);
its `old`/`new` list literals are carried as the kHz lists they
serialize. -/
structure ChangeEventV2 where
  ts : Int
  id : JValue
  name : Option String
  old : List Nat
  new : List Nat

/-- Modelled from the spec: hfdl/mod.rs:830 calls a six-argument
`update_station_by_frequencies(settings, timestamp, stale, id, name,
freqs)` returning `common::events::GroundStationChangeEvent`; that
variant is not under src/ (src's settings.rs holds a five-argument
sibling with a different event type).  Modelled per §4.4: find the
first station whose id matches (create one at the end on a miss), age
out entries older than `stale_timeout`, emit one event iff the khz-set
changed, and replace the stored set with timestamps refreshed to `now`
(the update instant passed by the caller).  The event's `old`/`new`
are the pre-update and handed-in kHz lists, which the implementation
serializes into list literals such as "[10027, 8921]". -/
def applyStationUpdateV2 (now stale : Int) (freqs : List Nat)
    (st : GroundStation) : GroundStation × Option ChangeEventV2 :=
  let st1 := st.invalidate now stale
  let newSet := mkFreqSet freqs now
  let ev := if freqSetEq st1.active_frequencies newSet then none
    else some { ts := now, id := st1.id, name := st1.name,
                old := st1.active_frequencies.map (fun x => x.khz),
                new := freqs }
  ({ st1 with active_frequencies := newSet }, ev)

def update_station_by_frequencies_v2 (now : Int) (stations : List GroundStation)
    (stale : Int) (station_id : JValue) (station_name : Option String)
    (freqs : List Nat) : List GroundStation × Option ChangeEventV2 :=
  match stations with
  | [] =>
    let r := applyStationUpdateV2 now stale freqs
      { id := station_id, name := station_name, active_frequencies := [] }
    ([r.1], r.2)
  | s :: rest =>
    if idMatchesV2 s.id station_id then
      let r := applyStationUpdateV2 now stale freqs s
      (r.1 :: rest, r.2)
    else
      let r := update_station_by_frequencies_v2 now rest stale
        station_id station_name freqs
      (s :: r.1, r.2)

/-! ### src/modules/hfdl/mod.rs, `process_message` -/

/-- `serde_json::from_str::<Vec<u16>>` applied to an event's old/new
list literal (mod.rs:853-856): the literal is a list of the stored
u64 kHz values, so the parse succeeds iff every entry fits u16. -/
def parseU16List (l : List Nat) : Option (List Nat) :=
  if l.all (fun x => x < 65536) then some l else none

/-- `HashSet::symmetric_difference` of the parsed old/new bands
(mod.rs:858-864), as the list of elements on exactly one side (the
result is only consumed through `any`, so duplicates are harmless). -/
def symmetricDifference (oldb newb : List Nat) : List Nat :=
  oldb.filter (fun x => ¬ newb.contains x) ++
    newb.filter (fun x => ¬ oldb.contains x)

/-- The in-or-near-band test applied to each changed frequency
(mod.rs:874-899): inside `[first, last]`; or below the band with
`last - x ≤ max_dist_khz` — the distance below the band is measured
from the band's *upper* edge — or above the band with
`x - last ≤ max_dist_khz`.  An empty current band makes the closure
return `true` (mod.rs:875-888). -/
def freqNearBand (current_band : List Nat) (max_dist : Nat) (x : Nat) : Bool :=
  match current_band.head?, current_band.getLast? with
  | some first, some last =>
    (first ≤ x ∧ x ≤ last) ∨ (x < first ∧ last - x ≤ max_dist) ∨
      (last < x ∧ x - last ≤ max_dist)
  | _, _ => true

/-- The per-event `changed` contribution (mod.rs:853-920): when either
literal fails to parse as `Vec<u16>`, `changed` is set; otherwise the
symmetric difference is tested against the current band. -/
def eventTriggersUpdate (current_band : List Nat) (max_dist : Nat)
    (ev : ChangeEventV2) : Bool :=
  match parseU16List ev.old, parseU16List ev.new with
  | some oldb, some newb =>
    (symmetricDifference oldb newb).any (fun x => freqNearBand current_band max_dist x)
  | _, _ => true

/-- The SPDU station loop (mod.rs:828-922): update each advertised
station (`station.freqs` cast `as u64` per entry), collect the change
events, and OR together the per-event trigger tests into `changed`.
Returns (stations after the loop, events in emission order, changed). -/
def spduFeedbackLoop (now stale : Int) (current_band : List Nat) (max_dist : Nat) :
    List GroundStation → List SpduGsStatus →
      List GroundStation × List ChangeEventV2 × Bool
  | stations, [] => (stations, [], false)
  | stations, status :: rest =>
    let freq_set := status.freqs.map (fun f => f64AsU64 f.freq)
    let r := update_station_by_frequencies_v2 now stations stale
      (JValue.num status.gs.id) status.gs.name freq_set
    let rr := spduFeedbackLoop now stale current_band max_dist r.1 rest
    match r.2 with
    | some ev =>
      (rr.1, ev :: rr.2.1, (eventTriggersUpdate current_band max_dist ev || rr.2.2))
    | none => (rr.1, rr.2.1, rr.2.2)

/-- The typed failure reasons of `process_message`; `entityTypePanic`
models the `unreachable!` panic in `Entity::kind` (hfdl/frame.rs:39),
which aborts instead of returning an `io::Error`.  The
missing-property errors of mod.rs:806-824 cannot occur because `init`
(mod.rs:243-272) always registers the properties the loop reads; the
properties are therefore modelled as an always-present record. -/
inductive PMError where
  | invalidArrivalTime
  | systemTableOutOfDate
  | missingPdu
  | frameTimestampFailed
  | entityTypePanic
deriving DecidableEq

/-- The module properties `process_message` reads (mod.rs:779-824):
`use_airframes_gs` and `only_use_active` default to `false` and
`sample_rate` to 0 on a non-matching JSON kind (`unwrap_or`); a
non-numeric stale timeout would error, so it is carried as a number. -/
structure HfdlProps where
  use_airframes_gs : Bool
  only_use_active : Bool
  sample_rate : Nat
  stale_timeout_sec : Int

/-- The side effects of one `process_message` call on the settings
state: the station registry afterwards, the emitted
GroundStationChangeEvents, and how many `SessionUpdate` end-session
signals were sent. -/
structure ProcEffects where
  stations : List GroundStation
  events : List ChangeEventV2
  sessionUpdateSignals : Nat

structure PropagationPath where
  freqs : List Rat
  path : List (Rat × Rat × Rat)
  party : CFEntity

structure HFDLGSEntry where
  kind : String
  id : Nat
  gs : String
  freqs : List Rat

structure HFDLMetadata where
  kind : String
  heard_on : List HFDLGSEntry
  reason : Option String

structure CFACARS where
  mode : String
  more : Bool
  label : String
  ack : Option String
  blk_id : Option String
  msg_num : Option String
  msg_num_seq : Option String
  tail : Option String
  flight : Option String
  sublabel : Option String
  mfi : Option String
  cfi : Option String
  text : Option String

/-- The `CommonFrame` fields `process_message` produces
(common/frame.rs:143-177).  The two RFC3339 strings are carried as the
instants they format: `timestamp` is the arrival instant
(`unix_time_to_utc_datetime(ts.to_f64())`, whose sub-microsecond f64
round-trip error no claim observes) and `indexed_timestamp` the
Indexed entry. -/
structure CommonFrame where
  timestamp : Int × Nat
  freq : Rat
  signal : Rat
  err : Bool
  paths : List PropagationPath
  app_name : String
  app_version : String
  indexed_timestamp : Int × Nat
  metadata_hfdl : Option HFDLMetadata
  src : CFEntity
  dst : Option CFEntity
  acars : Option CFACARS

/-- The branch-dependent pieces assembled into the final frame
(mod.rs:764-1122). -/
structure FramePieces where
  src : CFEntity
  dst : Option CFEntity
  paths : List PropagationPath
  indexed_timestamp : Int × Nat
  metadata_hfdl : Option HFDLMetadata
  acars : Option CFACARS
  has_err : Bool

/-- The SPDU branch (mod.rs:764-951): convert the source entity (a
panic there precedes everything else), reject an SPDU whose
`systable_version` exceeds the loaded table's *before* the feedback
loop, then run the station loop and send `SessionUpdate` once iff
(`only_use_active` or `use_airframes_gs`) and some event triggered.
The u64 `sample_rate` prop is cast `as u32` at mod.rs:866 before the
threshold computation, wrapping modulo 2³². -/
def processSpduBranch (systable : SystemTable) (props : HfdlProps)
    (stations : List GroundStation) (current_band : List Nat)
    (arrival : Int × Nat) (spdu : RawSPDU) :
    Except PMError (FramePieces × ProcEffects) :=
  match spdu.src.to_common_frame_entity systable with
  | none => Except.error PMError.entityTypePanic
  | some frame_src =>
    if systable.version < spdu.systable_version then
      Except.error PMError.systemTableOutOfDate
    else
      let max_dist := get_max_dist_khz_by_sample_rate (props.sample_rate % 4294967296)
      let fb := spduFeedbackLoop arrival.1 props.stale_timeout_sec current_band
        max_dist stations spdu.gs_status
      let signals := if (props.only_use_active || props.use_airframes_gs) && fb.2.2
        then 1 else 0
      Except.ok
        ({ src := frame_src, dst := none, paths := [],
           indexed_timestamp := arrival,
           metadata_hfdl := some
             { kind := "Squitter",
               heard_on := spdu.gs_status.map (fun x =>
                 { kind := x.gs.entity_type, id := x.gs.id,
                   gs := x.gs.name.getD "",
                   freqs := x.freqs.map (fun y => y.freq / 1000) }),
               reason := none },
           acars := none, has_err := false },
         { stations := fb.1, events := fb.2.1, sessionUpdateSignals := signals })

/-- The LPDU branch (mod.rs:952-1116): pure — it touches no settings
state.  Field handling in source order: `ac_info` icao attachment by
direction, `flight_id` → callsign, position → coords plus one
propagation path to a ground-station destination with coordinates,
HFNPDU time backfill (the only fallible step), ACARS mirroring with
normalized tail, and one path per qualifying `freq_data` entry. -/
def processLpduBranch (systable : SystemTable) (arrival : Int × Nat)
    (freq_mhz : Rat) (lpdu : RawLPDU) : Except PMError FramePieces :=
  match lpdu.src.to_common_frame_entity systable,
        lpdu.dst.to_common_frame_entity systable with
  | some src0, some dst0 =>
    let fromGS := lpdu.src.kindOf == some EntityType.GroundStation
    let acEnts : CFEntity × CFEntity :=
      match lpdu.ac_info with
      | some icao =>
        if fromGS then (src0, { dst0 with icao := some icao })
        else ({ src0 with icao := some icao }, dst0)
      | none => (src0, dst0)
    let src1 := acEnts.1
    let dst1 := acEnts.2
    match lpdu.hfnpdu with
    | some hfnpdu =>
      let src2 := match hfnpdu.flight_id with
        | some fid => { src1 with callsign := some fid.trim }
        | none => src1
      let posPt : Option WKTPoint := match hfnpdu.pos with
        | some pos =>
          let pt : WKTPoint := { x := pos.lon, y := pos.lat, z := 0 }
          if pt.valid then some pt else none
        | none => none
      let src3 := match posPt with
        | some pt => { src2 with coords := some pt }
        | none => src2
      let paths1 : List PropagationPath :=
        match posPt, dst1.coords with
        | some pt, some gs_pt =>
          [{ freqs := [freq_mhz],
             path := [(pt.x, pt.y, pt.z), (gs_pt.x, gs_pt.y, gs_pt.z)],
             party := dst1 }]
        | _, _ => []
      let timeResult : Except PMError (Int × Nat) :=
        match hfnpdu.time with
        | some t =>
          match nearest_time_in_past arrival.1 t.hour t.min t.sec with
          | some ft => Except.ok (ft, 0)
          | none => Except.error PMError.frameTimestampFailed
        | none => Except.ok arrival
      match timeResult with
      | Except.error e => Except.error e
      | Except.ok indexed_ts =>
        let has_err := match hfnpdu.acars with
          | some a => a.err
          | none => false
        let acars_content : Option CFACARS := hfnpdu.acars.map (fun a =>
          { mode := a.mode, more := a.more, label := a.label,
            ack := some a.ack, blk_id := some a.blk_id,
            msg_num := a.msg_num, msg_num_seq := a.msg_num_seq,
            tail := some a.reg, flight := a.flight,
            sublabel := a.sublabel, mfi := a.mfi, cfi := a.cfi,
            text := some a.msg_text })
        let tailEnts : CFEntity × CFEntity :=
          match hfnpdu.acars with
          | some a =>
            if fromGS then (src3, { dst1 with tail := some (normalize_tail a.reg) })
            else ({ src3 with tail := some (normalize_tail a.reg) }, dst1)
          | none => (src3, dst1)
        let src4 := tailEnts.1
        let dst2 := tailEnts.2
        let reason := hfnpdu.last_freq_change_cause.map (fun r => r.descr)
        let heard_on : List HFDLGSEntry :=
          match hfnpdu.freq_data with
          | some fd => fd.map (fun x =>
              { kind := x.gs.entity_type, id := x.gs.id,
                gs := x.gs.name.getD "",
                freqs := x.heard_on_freqs.map (fun y => y.freq / 1000) })
          | none => []
        let paths2 : List PropagationPath :=
          match hfnpdu.freq_data, src4.coords, lpdu.dst.kindOf with
          | some _, some pt, some EntityType.GroundStation =>
            heard_on.filterMap (fun entry =>
              match dst2.id with
              | some did =>
                if did ≠ entry.id ∧ entry.freqs ≠ [] then
                  match systable.by_id entry.id with
                  | some gs => some
                    { freqs := entry.freqs,
                      path := [(pt.x, pt.y, pt.z), (gs.lon, gs.lat, 0)],
                      party :=
                        { kind := "Ground station", id := some gs.id,
                          gs := some gs.name, icao := none, callsign := none,
                          tail := none,
                          coords := some { x := gs.lon, y := gs.lat, z := 0 } } }
                  | none => none
                else none
              | none => none)
          | _, _, _ => []
        Except.ok
          { src := src4, dst := some dst2, paths := paths1 ++ paths2,
            indexed_timestamp := indexed_ts,
            metadata_hfdl := some
              { kind := hfnpdu.kind.name, heard_on := heard_on, reason := reason },
            acars := acars_content, has_err := has_err }
    | none =>
      let dst2 := match lpdu.assigned_ac_id with
        | some ac_id => if fromGS then { dst1 with id := some ac_id } else dst1
        | none => dst1
      let reason := lpdu.reason.map (fun r => r.descr)
      Except.ok
        { src := src1, dst := some dst2, paths := [],
          indexed_timestamp := arrival,
          metadata_hfdl := some
            { kind := lpdu.kind.name, heard_on := [], reason := reason },
          acars := none, has_err := false }
  | _, _ => Except.error PMError.entityTypePanic

/-- Embeds `process_message` (hfdl/mod.rs:733-1147) as a function from
(system table, properties, station registry, current band, parsed
frame) to the result plus the side effects that actually happened;
every error return leaves the registry as it was and has emitted no
event or signal, exactly as in the source, where each error return
precedes the corresponding mutation.  The arrival instant is
`split_unix_time_to_utc_datetime(sec as i64, (usec * 1000) as u32)`;
the u32 cast wraps modulo 2³². -/
def process_message (systable : SystemTable) (props : HfdlProps)
    (stations : List GroundStation) (current_band : List Nat) (raw : Frame) :
    Except PMError CommonFrame × ProcEffects :=
  let noEff : ProcEffects := { stations := stations, events := [], sessionUpdateSignals := 0 }
  match split_unix_time_to_utc_datetime (u64AsI64 raw.hfdl.ts.sec)
      ((raw.hfdl.ts.usec * 1000) % 4294967296) with
  | none => (Except.error PMError.invalidArrivalTime, noEff)
  | some arrival =>
    let pr : Except PMError (FramePieces × ProcEffects) :=
      match raw.hfdl.spdu with
      | some spdu => processSpduBranch systable props stations current_band arrival spdu
      | none =>
        match raw.hfdl.lpdu with
        | some lpdu =>
          (processLpduBranch systable arrival raw.hfdl.freq_as_mhz lpdu).map
            (fun p => (p, noEff))
        | none => Except.error PMError.missingPdu
    match pr with
    | Except.error e => (Except.error e, noEff)
    | Except.ok pe =>
      (Except.ok
        { timestamp := (u64AsI64 raw.hfdl.ts.sec, raw.hfdl.ts.usec),
          freq := raw.hfdl.freq_as_mhz,
          signal := raw.hfdl.sig_level,
          err := pe.1.has_err,
          paths := pe.1.paths,
          app_name := raw.hfdl.app.name,
          app_version := raw.hfdl.app.version,
          indexed_timestamp := pe.1.indexed_timestamp,
          metadata_hfdl := pe.1.metadata_hfdl,
          src := pe.1.src, dst := pe.1.dst, acars := pe.1.acars },
       pe.2)

/-! ### Concrete fixtures for the process_message claims -/

/-- A loaded system table at version 51 (the minimum `load` accepts). -/
def sysTable51 : SystemTable :=
  { version := 51,
    stations := [{ id := 2, name := "Molokai", lat := 21, lon := -157,
                   frequencies := [5508, 6529, 8921, 10027] }] }

/-- Properties with `only_use_active` enabled and sample rate 500 kHz
(so `max_dist_khz = 450`). -/
def propsActive : HfdlProps :=
  { use_airframes_gs := false, only_use_active := true,
    sample_rate := 500000, stale_timeout_sec := 2700 }

def gsMolokai : RawEntity :=
  { entity_type := "Ground station", id := 2, name := some "Molokai",
    ac_info := none }

def statusWith (freqs : List Rat) : SpduGsStatus :=
  { gs := gsMolokai, utc_sync := true,
    freqs := freqs.map (fun f => { id := 0, freq := f }) }

/-- An SPDU line with the given timestamp, Hz frequency, advertised
system-table version and ground-station statuses. -/
def mkSpduFrame (sec usec hz tabver : Nat) (statuses : List SpduGsStatus) : Frame :=
  { hfdl := { app := { name := "dumphfdl", version := "1.4.1" },
              ts := { sec := sec, usec := usec },
              freq := hz, bit_rate := 300, sig_level := -13, noise_level := -30,
              freq_skew := 0, slot := "0",
              spdu := some { err := false, src := gsMolokai, spdu_version := 1,
                             change_note := "", systable_version := tabver,
                             gs_status := statuses },
              lpdu := none } }

/-! ### C1 -/

/-- C1 (amended): for every frame whose arrival timestamp is
representable (and whose SPDU source entity type does not make
`Entity::kind` panic), an SPDU advertising a `systable_version` greater
than the loaded table's makes `process_message` fail with the
out-of-date error, emitting no CommonFrame.  The arrival-time
hypothesis is necessary: a frame whose timestamp is unrepresentable
fails earlier with the invalid-arrival-time error (see the
counterexample). -/
theorem process_message_systable_out_of_date
    (systable : SystemTable) (props : HfdlProps) (stations : List GroundStation)
    (current_band : List Nat) (raw : Frame) (spdu : RawSPDU)
    (arrival : Int × Nat) (fs : CFEntity)
    (hspdu : raw.hfdl.spdu = some spdu)
    (harr : split_unix_time_to_utc_datetime (u64AsI64 raw.hfdl.ts.sec)
      ((raw.hfdl.ts.usec * 1000) % 4294967296) = some arrival)
    (hsrc : spdu.src.to_common_frame_entity systable = some fs)
    (hver : systable.version < spdu.systable_version) :
    (process_message systable props stations current_band raw).1 =
      Except.error PMError.systemTableOutOfDate := by
  unfold process_message
  simp only [harr, hspdu, processSpduBranch, hsrc, hver, if_true]

/-- Witness for C1's amended theorem at a concrete SPDU frame
advertising table version 52 against the loaded version 51. -/
theorem process_message_systable_out_of_date_witness :
    ((mkSpduFrame 1714564800 500000 8921000 52 []).hfdl.spdu).isSome = true ∧
    (process_message sysTable51 propsActive [] [10027]
      (mkSpduFrame 1714564800 500000 8921000 52 [])).1 =
      Except.error PMError.systemTableOutOfDate := by
  refine ⟨rfl, ?_⟩
  exact process_message_systable_out_of_date sysTable51 propsActive [] [10027]
    (mkSpduFrame 1714564800 500000 8921000 52 [])
    ((mkSpduFrame 1714564800 500000 8921000 52 []).hfdl.spdu.get rfl)
    (1714564800, 500000000)
    ((gsMolokai.to_common_frame_entity sysTable51).get rfl)
    rfl rfl rfl (by decide)

/-- An out-of-date SPDU whose source entity type is "Reserved":
`validate_entity_type` would accept it, but the validators never run
and `Entity::kind` panics on it. -/
def frameReservedSrc : Frame :=
  { hfdl := { app := { name := "dumphfdl", version := "1.4.1" },
              ts := { sec := 1714564800, usec := 0 },
              freq := 8921000, bit_rate := 300, sig_level := -13,
              noise_level := -30, freq_skew := 0, slot := "0",
              spdu := some { err := false,
                             src := { entity_type := "Reserved", id := 1,
                                      name := none, ac_info := none },
                             spdu_version := 1, change_note := "",
                             systable_version := 52, gs_status := [] },
              lpdu := none } }

/-- C1 counterexample: two frames whose SPDU carries systable_version
52 > 51 yet whose processing does not end in the out-of-date error the
claim promises for every such frame: one whose timestamp has
usec = 3,000,000 — `(usec * 1000) as u32` = 3·10⁹ ≥ 2·10⁹ nanoseconds,
which chrono rejects — fails first with the invalid-arrival-time
error, and one whose SPDU source entity type is "Reserved" hits the
`unreachable!` panic in `Entity::kind` before the version check. -/
theorem process_message_out_of_date_counterexample :
    (process_message sysTable51 propsActive [] [10027]
      (mkSpduFrame 1714564800 3000000 8921000 52 [])).1 =
      Except.error PMError.invalidArrivalTime ∧
    (process_message sysTable51 propsActive [] [10027] frameReservedSrc).1 =
      Except.error PMError.entityTypePanic ∧
    PMError.invalidArrivalTime ≠ PMError.systemTableOutOfDate ∧
    PMError.entityTypePanic ≠ PMError.systemTableOutOfDate := by
  exact ⟨rfl, rfl, by decide, by decide⟩

/-! ### C10 -/

/-- C10: whenever the frame's SPDU advertises a `systable_version`
above the loaded table's, `process_message` returns an error before the
SPDU feedback loop runs: the ground-station registry is returned
unchanged and no GroundStationChangeEvent and no SessionUpdate signal
is emitted, whichever error ends the call (invalid arrival time, the
entity-kind panic, or the out-of-date rejection itself). -/
theorem process_message_error_atomicity
    (systable : SystemTable) (props : HfdlProps) (stations : List GroundStation)
    (current_band : List Nat) (raw : Frame) (spdu : RawSPDU)
    (hspdu : raw.hfdl.spdu = some spdu)
    (hver : systable.version < spdu.systable_version) :
    (∃ e, (process_message systable props stations current_band raw).1 =
      Except.error e) ∧
    (process_message systable props stations current_band raw).2.stations = stations ∧
    (process_message systable props stations current_band raw).2.events = [] ∧
    (process_message systable props stations current_band raw).2.sessionUpdateSignals = 0 := by
  have key : ∃ e, process_message systable props stations current_band raw =
      (Except.error e,
       { stations := stations, events := [], sessionUpdateSignals := 0 }) := by
    unfold process_message
    cases hsplit : split_unix_time_to_utc_datetime (u64AsI64 raw.hfdl.ts.sec)
        ((raw.hfdl.ts.usec * 1000) % 4294967296) with
    | none => exact ⟨PMError.invalidArrivalTime, by simp only []⟩
    | some arrival =>
      cases hsrc : spdu.src.to_common_frame_entity systable with
      | none =>
        exact ⟨PMError.entityTypePanic, by
          simp only [hspdu, processSpduBranch, hsrc]⟩
      | some fs =>
        exact ⟨PMError.systemTableOutOfDate, by
          simp only [hspdu, processSpduBranch, hsrc, hver, if_true]⟩
  obtain ⟨e, he⟩ := key
  refine ⟨⟨e, ?_⟩, ?_, ?_, ?_⟩ <;> rw [he]

/-- Witness for C10 at the concrete out-of-date SPDU frame and a
non-empty starting registry. -/
theorem process_message_error_atomicity_witness :
    ((mkSpduFrame 1714564800 500000 8921000 52 [statusWith [8921]]).hfdl.spdu).isSome
      = true ∧
    (∃ e, (process_message sysTable51 propsActive
      [{ id := JValue.num 2, name := some "Molokai",
         active_frequencies := [{ khz := 10027, last_updated := 1714564000 }] }]
      [10027] (mkSpduFrame 1714564800 500000 8921000 52 [statusWith [8921]])).1 =
      Except.error e) ∧
    (process_message sysTable51 propsActive
      [{ id := JValue.num 2, name := some "Molokai",
         active_frequencies := [{ khz := 10027, last_updated := 1714564000 }] }]
      [10027] (mkSpduFrame 1714564800 500000 8921000 52 [statusWith [8921]])).2.stations =
      [{ id := JValue.num 2, name := some "Molokai",
         active_frequencies := [{ khz := 10027, last_updated := 1714564000 }] }] ∧
    (process_message sysTable51 propsActive
      [{ id := JValue.num 2, name := some "Molokai",
         active_frequencies := [{ khz := 10027, last_updated := 1714564000 }] }]
      [10027] (mkSpduFrame 1714564800 500000 8921000 52 [statusWith [8921]])).2.events =
      [] ∧
    (process_message sysTable51 propsActive
      [{ id := JValue.num 2, name := some "Molokai",
         active_frequencies := [{ khz := 10027, last_updated := 1714564000 }] }]
      [10027]
      (mkSpduFrame 1714564800 500000 8921000 52 [statusWith [8921]])).2.sessionUpdateSignals
      = 0 := by
  refine ⟨rfl, ?_⟩
  exact process_message_error_atomicity sysTable51 propsActive
    [{ id := JValue.num 2, name := some "Molokai",
       active_frequencies := [{ khz := 10027, last_updated := 1714564000 }] }]
    [10027] (mkSpduFrame 1714564800 500000 8921000 52 [statusWith [8921]])
    ((mkSpduFrame 1714564800 500000 8921000 52 [statusWith [8921]]).hfdl.spdu.get rfl)
    rfl (by decide)

/-! ### C2 -/

theorem spduFeedbackLoop_changed_eq (now stale : Int) (band : List Nat) (md : Nat) :
    ∀ (statuses : List SpduGsStatus) (stations : List GroundStation),
      (spduFeedbackLoop now stale band md stations statuses).2.2 =
        (spduFeedbackLoop now stale band md stations statuses).2.1.any
          (eventTriggersUpdate band md) := by
  intro statuses
  induction statuses with
  | nil => intro stations; rfl
  | cons status rest ih =>
    intro stations
    simp only [spduFeedbackLoop]
    cases hr : (update_station_by_frequencies_v2 now stations stale
        (JValue.num status.gs.id) status.gs.name
        (status.freqs.map (fun f => f64AsU64 f.freq))).2 with
    | none => simpa using ih _
    | some ev => simp [ih _]

/-- C2 (amended): while `only_use_active` or `use_airframes_gs` is
enabled, an SPDU that passes the arrival-time and system-table checks
makes `process_message` send exactly one SessionUpdate end-session
signal iff one of the GroundStationChangeEvents of its feedback loop
has a changed frequency that is inside the current listening band, or
above it by at most `max_dist_khz`, or below it with
`last - x ≤ max_dist_khz` — the distance of a below-band frequency is
measured from the band's *upper* edge, not its lower one as the claim
stated (or iff an event's old/new list fails the `Vec<u16>` re-parse);
otherwise it sends none.  `max_dist_khz` is computed from the u64
`sample_rate` prop after its `as u32` wrap (mod.rs:866).  For a single-frequency band such as [10027]
the two readings coincide, so the claim's seed scenario
({10027} → {8921}, max_dist 450) sends exactly one signal. -/
theorem process_message_spdu_session_update
    (systable : SystemTable) (props : HfdlProps) (stations : List GroundStation)
    (current_band : List Nat) (raw : Frame) (spdu : RawSPDU)
    (arrival : Int × Nat) (fs : CFEntity)
    (hspdu : raw.hfdl.spdu = some spdu)
    (harr : split_unix_time_to_utc_datetime (u64AsI64 raw.hfdl.ts.sec)
      ((raw.hfdl.ts.usec * 1000) % 4294967296) = some arrival)
    (hsrc : spdu.src.to_common_frame_entity systable = some fs)
    (hver : ¬ systable.version < spdu.systable_version)
    (hflags : (props.only_use_active || props.use_airframes_gs) = true) :
    (process_message systable props stations current_band raw).2.sessionUpdateSignals =
      (if (process_message systable props stations current_band raw).2.events.any
          (eventTriggersUpdate current_band
            (get_max_dist_khz_by_sample_rate (props.sample_rate % 4294967296))) = true
       then 1 else 0) := by
  unfold process_message
  simp only [harr, hspdu, processSpduBranch, hsrc, hver, if_false, hflags,
    Bool.true_and, spduFeedbackLoop_changed_eq]

/-- The spec's seed scenario: station 2 currently advertising
{10027}. -/
def stationsSeed : List GroundStation :=
  [{ id := JValue.num 2, name := some "Molokai",
     active_frequencies := [{ khz := 10027, last_updated := 1714564000 }] }]

/-- The spec's seed SPDU: station 2 swaps to {8921}. -/
def frameSeed : Frame := mkSpduFrame 1714564800 0 8921000 51 [statusWith [8921]]

/-- Witness for C2's amended theorem: the seed scenario under band
[10027] with max_dist 450 emits the {10027} → {8921} event and exactly
one SessionUpdate. -/
theorem process_message_spdu_session_update_witness :
    (propsActive.only_use_active || propsActive.use_airframes_gs) = true ∧
    ¬ sysTable51.version < 51 ∧
    ((process_message sysTable51 propsActive stationsSeed [10027]
        frameSeed).2.sessionUpdateSignals =
      (if (process_message sysTable51 propsActive stationsSeed [10027]
            frameSeed).2.events.any
          (eventTriggersUpdate [10027]
            (get_max_dist_khz_by_sample_rate (propsActive.sample_rate % 4294967296))) = true
       then 1 else 0)) ∧
    (process_message sysTable51 propsActive stationsSeed [10027]
        frameSeed).2.sessionUpdateSignals = 1 := by
  refine ⟨rfl, by decide, ?_, rfl⟩
  exact process_message_spdu_session_update sysTable51 propsActive stationsSeed
    [10027] frameSeed (frameSeed.hfdl.spdu.get rfl) (1714564800, 0)
    ((gsMolokai.to_common_frame_entity sysTable51).get rfl)
    rfl rfl rfl (by decide) rfl

/-- Station 2 advertising {9700}: 9700 sits 327 kHz below the band
[10027, 10327], within max_dist 450 of its lower edge. -/
def stationsEdge : List GroundStation :=
  [{ id := JValue.num 2, name := some "Molokai",
     active_frequencies := [{ khz := 9700, last_updated := 1714564000 }] }]

/-- An SPDU swapping station 2 to {9000}. -/
def frameEdge : Frame := mkSpduFrame 1714564800 0 8921000 51 [statusWith [9000]]

/-- C2 counterexample: with current band [10027, 10327] and
max_dist_khz 450, the SPDU swapping station 2 from {9700} to {9000}
emits the change event — its symmetric difference contains 9700, which
is within 450 kHz of the band's lower edge (10027 − 9700 = 327), so the
claim requires exactly one SessionUpdate — yet `process_message` sends
none: for a frequency below the band the code compares the distance to
the *upper* edge (10327 − 9700 = 627 > 450, mod.rs:892). -/
theorem process_message_spdu_update_counterexample :
    propsActive.only_use_active = true ∧
    (process_message sysTable51 propsActive stationsEdge [10027, 10327]
        frameEdge).2.events.map (fun e => (e.old, e.new)) = [([9700], [9000])] ∧
    9700 ∈ symmetricDifference [9700] [9000] ∧
    9700 < 10027 ∧
    10027 - 9700 ≤
      get_max_dist_khz_by_sample_rate (propsActive.sample_rate % 4294967296) ∧
    (process_message sysTable51 propsActive stationsEdge [10027, 10327]
        frameEdge).2.sessionUpdateSignals = 0 := by
  exact ⟨rfl, rfl, by decide, by decide, by decide, rfl⟩

/-! ### C4 -/

/-- C4 (amended): every CommonFrame `process_message` emits has
`freq = raw.freq / 10⁶` MHz — the normalizer enforces no range
restriction (the serde_valid bounds on `HFDL.freq` and
`CommonFrame.freq` are never invoked) — so the emitted `freq` lies in
[2.0, 1630.0] iff the decoder-reported Hz value lies in
[2·10⁶, 1.63·10⁹]. -/
theorem process_message_freq_mhz
    (systable : SystemTable) (props : HfdlProps) (stations : List GroundStation)
    (current_band : List Nat) (raw : Frame) (q : Rat)
    (h : ((process_message systable props stations current_band raw).1.toOption.map
      (fun fr => fr.freq)) = some q) :
    q = (raw.hfdl.freq : Rat) / 1000000 ∧
    ((2 ≤ q ∧ q ≤ 1630) ↔
      (2000000 ≤ raw.hfdl.freq ∧ raw.hfdl.freq ≤ 1630000000)) := by
  have hq : q = (raw.hfdl.freq : Rat) / 1000000 := by
    unfold process_message at h
    cases hsplit : split_unix_time_to_utc_datetime (u64AsI64 raw.hfdl.ts.sec)
        ((raw.hfdl.ts.usec * 1000) % 4294967296) with
    | none => rw [hsplit] at h; simp [Except.toOption] at h
    | some arrival =>
      rw [hsplit] at h
      cases hspdu : raw.hfdl.spdu with
      | some spdu =>
        rw [hspdu] at h
        simp only [] at h
        cases hb : processSpduBranch systable props stations current_band arrival spdu with
        | error e => rw [hb] at h; simp [Except.toOption] at h
        | ok pe =>
          rw [hb] at h
          simp only [Except.toOption, Option.map, Option.some.injEq] at h
          exact h.symm
      | none =>
        rw [hspdu] at h
        simp only [] at h
        cases hlp : raw.hfdl.lpdu with
        | some lpdu =>
          rw [hlp] at h
          simp only [] at h
          cases hb : processLpduBranch systable arrival raw.hfdl.freq_as_mhz lpdu with
          | error e => rw [hb] at h; simp [Except.toOption, Except.map] at h
          | ok p =>
            rw [hb] at h
            simp only [Except.map, Except.toOption, Option.map, Option.some.injEq] at h
            exact h.symm
        | none => rw [hlp] at h; simp [Except.toOption] at h
  subst hq
  refine ⟨rfl, ?_⟩
  rw [le_div_iff₀ (by norm_num : (0 : Rat) < 1000000),
    div_le_iff₀ (by norm_num : (0 : Rat) < 1000000)]
  norm_num

/-- An SPDU line reporting freq = 1,000,000 Hz (1 MHz). -/
def frameLowFreq : Frame := mkSpduFrame 1714564800 0 1000000 51 []

/-- C4 counterexample: the decoder line reporting 1,000,000 Hz is
accepted (plain serde deserialization runs no validator) and the
emitted CommonFrame has freq = 1.0 MHz, below the claimed lower bound
2.0. -/
theorem process_message_freq_range_counterexample :
    ((process_message sysTable51 propsActive [] [10027] frameLowFreq).1.toOption.map
      (fun fr => fr.freq)) = some (((1000000 : Nat) : Rat) / 1000000) ∧
    (((1000000 : Nat) : Rat) / 1000000) < 2 := by
  exact ⟨rfl, by norm_num⟩

/-- Witness for C4's amended theorem at the seed SPDU frame reporting
8,921,000 Hz. -/
theorem process_message_freq_mhz_witness :
    ((process_message sysTable51 propsActive [] [10027]
        (mkSpduFrame 1714564800 0 8921000 51 [])).1.toOption.map
      (fun fr => fr.freq)) = some (((8921000 : Nat) : Rat) / 1000000) ∧
    ((((8921000 : Nat) : Rat) / 1000000) =
      (((mkSpduFrame 1714564800 0 8921000 51 []).hfdl.freq : Rat) / 1000000) ∧
     ((2 ≤ (((8921000 : Nat) : Rat) / 1000000) ∧
        (((8921000 : Nat) : Rat) / 1000000) ≤ 1630) ↔
      (2000000 ≤ (mkSpduFrame 1714564800 0 8921000 51 []).hfdl.freq ∧
        (mkSpduFrame 1714564800 0 8921000 51 []).hfdl.freq ≤ 1630000000))) := by
  refine ⟨rfl, ?_⟩
  exact process_message_freq_mhz sysTable51 propsActive [] [10027]
    (mkSpduFrame 1714564800 0 8921000 51 []) (((8921000 : Nat) : Rat) / 1000000) rfl

end Xng
